import Mathlib

/-!
# Verification of the rtmouse dwell-click daemon core

Shallow embedding of `src/main.rs`: the dwell/drag state machine (`main_loop`),
the motion detector with hysteresis (`is_cursor_moving`), the physical-button
inhibition tracker (`is_click_inhibited`) and the fixed-interval scheduler's
deadline-advance loop.  The X11-facing calls (pointer query, raw-event drain,
synthetic event injection, primary-button query) are modelled as explicit
inputs to each tick: a pointer position, a drained list of raw button events,
and the primary-button code the backend would report.  Machine integers are
modelled as `Nat`/`Int` with explicit wrapping where the source can overflow
(`i32` coordinate arithmetic, the `u64` bit masks and their `1 << detail`
updates).
-/

namespace RtMouse

/-- Fixed tick interval in milliseconds (`TIMER_INTERVAL_MS` in the source). -/
def TIMER_INTERVAL_MS : Nat := 100

/-- Configuration record (`DwellConfig` in the source; the status-file fields
are omitted because they never reach the core logic). -/
structure DwellConfig where
  min_movement_pixels : Nat
  dwell_time : Nat
  drag_time : Nat
  drag_enabled : Bool
  sound_enabled : Bool
deriving DecidableEq

/-- The static `CONFIG` value from the source. -/
def CONFIG : DwellConfig :=
  { min_movement_pixels := 10
    dwell_time := 500 / TIMER_INTERVAL_MS
    drag_time := 500 / TIMER_INTERVAL_MS
    drag_enabled := true
    sound_enabled := true }

/-- `StateActive` from the source. -/
structure StateActive where
  active : Bool
  just_became_active : Bool
deriving DecidableEq

/-- `StateIsCursorMoving` from the source: the last stable pointer position
and the previous classification. -/
structure StateIsCursorMoving where
  old_x : Int
  old_y : Int
  moving : Bool
deriving DecidableEq

/-- `StateIsClickInhibited` from the source: two `u64` bit masks, modelled as
naturals kept below `2 ^ 64` by the operations. -/
structure StateIsClickInhibited where
  inhibit_mask : Nat
  uninhibit_mask : Nat
deriving DecidableEq

/-- `StateMainLoop` from the source (without the X11 handle). -/
structure StateMainLoop where
  we_are_dragging_mouse : Bool
  idle_timer : Nat
  st_active : StateActive
  st_is_click_inhibited : StateIsClickInhibited
  st_is_cursor_moving : StateIsCursorMoving
deriving DecidableEq

/-- A raw button notification drained from the X server
(`XI_RawButtonPress` / `XI_RawButtonRelease` with its `detail` code). -/
inductive RawEvent where
  | press (detail : Nat)
  | release (detail : Nat)
deriving DecidableEq

/-- A synthetic button event emitted through `send_button_event`. -/
inductive SynthEvent where
  | press (button : Nat)
  | release (button : Nat)
deriving DecidableEq

/-- Interpret an `Int` as the two's-complement `i32` it would wrap to. -/
def wrap32 (v : Int) : Int := (v + 2 ^ 31) % 2 ^ 32 - 2 ^ 31

/-- The value a (wrapped) `i32` casts to `as u32`. -/
def asU32 (v : Int) : Nat := (v % 2 ^ 32).toNat

/-- `u32` multiplication (wrapping). -/
def u32mul (a b : Nat) : Nat := a * b % 2 ^ 32

/-- The bit contributed by `1 << detail` on a `u64`
(release-mode Rust masks the shift amount to the width). -/
def maskBit (detail : Nat) : Nat := 1 <<< (detail % 64)

/-- One raw notification applied to the masks inside the drain loop of
`is_click_inhibited`: a press sets a bit of `inhibit_mask`, a release sets a
bit of `uninhibit_mask`. -/
def applyRawEvent (st : StateIsClickInhibited) : RawEvent → StateIsClickInhibited
  | RawEvent.press d => { st with inhibit_mask := st.inhibit_mask ||| maskBit d }
  | RawEvent.release d => { st with uninhibit_mask := st.uninhibit_mask ||| maskBit d }

/-- `is_click_inhibited` from the source: clear the bits released in the
previous cycle (`inhibit_mask &= !uninhibit_mask; uninhibit_mask = 0`), drain
the pending raw events, and report `inhibit_mask != 0`.  The complement of a
`u64` is its xor with `2 ^ 64 - 1`. -/
def is_click_inhibited (st : StateIsClickInhibited) (events : List RawEvent) :
    StateIsClickInhibited × Bool :=
  let st1 : StateIsClickInhibited :=
    { inhibit_mask := st.inhibit_mask &&& (st.uninhibit_mask ^^^ (2 ^ 64 - 1))
      uninhibit_mask := 0 }
  let st2 := events.foldl applyRawEvent st1
  (st2, decide (st2.inhibit_mask ≠ 0))

/-- `is_cursor_moving` from the source: squared displacement from the stored
stable position, compared (strictly) against the hysteretic threshold; the
stable position is replaced only on a "moving" classification.  The `i32`
subtractions, products and sum wrap, and the sum is cast `as u32`. -/
def is_cursor_moving (cfg : DwellConfig) (st : StateIsCursorMoving)
    (root_x root_y : Int) : StateIsCursorMoving :=
  let dx := wrap32 (root_x - st.old_x)
  let dy := wrap32 (root_y - st.old_y)
  let movement_threshold := if st.moving then 1 else cfg.min_movement_pixels
  let sq := asU32 (wrap32 (wrap32 (dx * dx) + wrap32 (dy * dy)))
  let moving := decide (u32mul movement_threshold movement_threshold < sq)
  if moving then { old_x := root_x, old_y := root_y, moving := true }
  else { st with moving := false }

/-- `max_time` as computed at the top of `main_loop`. -/
def max_time (cfg : DwellConfig) : Nat := max cfg.dwell_time cfg.drag_time + 1

/-- Lines 241-243 of the source: increment `idle_timer`, saturating at
`max_time`. -/
def stepIdleInc (cfg : DwellConfig) (st : StateMainLoop) : StateMainLoop :=
  if st.idle_timer < max_time cfg then { st with idle_timer := st.idle_timer + 1 }
  else st

/-- Lines 245-249 of the source: run the inhibition tracker on the drained
events; if inhibited and not exempted by an in-progress drag, force
`idle_timer` to `max_time`. -/
def stepInhibit (cfg : DwellConfig) (events : List RawEvent)
    (st : StateMainLoop) : StateMainLoop :=
  let inh := is_click_inhibited st.st_is_click_inhibited events
  let st := { st with st_is_click_inhibited := inh.1 }
  if inh.2 && (!cfg.drag_enabled || !st.we_are_dragging_mouse) then
    { st with idle_timer := max_time cfg }
  else st

/-- Lines 251-265 of the source: at `idle_timer == dwell_time`, while not
dragging, emit a press, either starting a drag (timer restarted at 0) or
immediately completing the click with a release (timer parked at
`max_time`). -/
def stepDwellClick (cfg : DwellConfig) (primary_button : Nat)
    (st : StateMainLoop) : StateMainLoop × List SynthEvent :=
  if st.idle_timer = cfg.dwell_time ∧ st.we_are_dragging_mouse = false then
    if cfg.drag_enabled then
      ({ st with we_are_dragging_mouse := true, idle_timer := 0 },
        [SynthEvent.press primary_button])
    else
      ({ st with idle_timer := max_time cfg },
        [SynthEvent.press primary_button, SynthEvent.release primary_button])
  else (st, [])

/-- Lines 267-273 of the source: at `idle_timer == drag_time` while
dragging, emit the release and park the timer at `max_time`. -/
def stepDragRelease (cfg : DwellConfig) (primary_button : Nat)
    (st : StateMainLoop) : StateMainLoop × List SynthEvent :=
  if st.idle_timer = cfg.drag_time ∧ st.we_are_dragging_mouse = true then
    ({ st with we_are_dragging_mouse := false, idle_timer := max_time cfg },
      [SynthEvent.release primary_button])
  else (st, [])

/-- The body of `main_loop` after the `active` gate, with the motion
classification of the current tick passed in as `moving` (the source computes
it by calling `is_cursor_moving`; `main_loop` below does the same), the
drained raw events passed to `is_click_inhibited`, and `primary_button` the
code `get_primary_button_code` would return.  Returns the updated state and
the synthetic events sent this tick, in order: the moving branch
(lines 231-239) handles the activation guard and the baseline reset, the
still branch runs the four stages above in source order. -/
def mainLoopCore (cfg : DwellConfig) (primary_button : Nat) (moving : Bool)
    (events : List RawEvent) (st : StateMainLoop) :
    StateMainLoop × List SynthEvent :=
  if moving then
    if st.st_active.just_became_active then
      ({ st with st_active := { st.st_active with just_became_active := false }
                 idle_timer := max_time cfg + 1 }, [])
    else
      ({ st with idle_timer := 0 }, [])
  else
    let st := stepIdleInc cfg st
    let st := stepInhibit cfg events st
    let pr := stepDwellClick cfg primary_button st
    let rel := stepDragRelease cfg primary_button pr.1
    (rel.1, pr.2 ++ rel.2)

/-- The external observations one tick consumes: the pointer position
`XQueryPointer` reports, the raw events drained by the `XPending` loop, and
the primary-button code the backend reports at emission time. -/
structure TickInput where
  root_x : Int
  root_y : Int
  events : List RawEvent
  primary_button : Nat
deriving DecidableEq

/-- `main_loop` from the source: no-op when inactive, otherwise classify
motion (updating the motion state) and run the dwell/drag logic. -/
def main_loop (cfg : DwellConfig) (inp : TickInput) (st : StateMainLoop) :
    StateMainLoop × List SynthEvent :=
  if st.st_active.active = false then (st, [])
  else
    let mst := is_cursor_moving cfg st.st_is_cursor_moving inp.root_x inp.root_y
    mainLoopCore cfg inp.primary_button mst.moving inp.events
      { st with st_is_cursor_moving := mst }

/-- Iterate `main_loop` over a list of tick inputs, concatenating the
synthetic events in emission order. -/
def runMainLoop (cfg : DwellConfig) (st : StateMainLoop) :
    List TickInput → StateMainLoop × List SynthEvent
  | [] => (st, [])
  | inp :: rest =>
    let r := main_loop cfg inp st
    let r2 := runMainLoop cfg r.1 rest
    (r2.1, r.2 ++ r2.2)

/-- The state `main` constructs at startup. -/
def initState : StateMainLoop :=
  { we_are_dragging_mouse := false
    idle_timer := 0
    st_active := { active := true, just_became_active := true }
    st_is_click_inhibited := { inhibit_mask := 0, uninhibit_mask := 0 }
    st_is_cursor_moving := { old_x := 0, old_y := 0, moving := false } }

/-- A session state as it looks right after a tick classified as moving
reset the baseline: dwell timing restarted, no drag in progress, clean masks,
`just_became_active` already consumed. -/
def coreSt (dragging : Bool) (idle inh uninh : Nat) : StateMainLoop :=
  { we_are_dragging_mouse := dragging
    idle_timer := idle
    st_active := { active := true, just_became_active := false }
    st_is_click_inhibited := { inhibit_mask := inh, uninhibit_mask := uninh }
    st_is_cursor_moving := { old_x := 0, old_y := 0, moving := true } }

/-- Baseline state for the dwell runs: the state right after a moving tick. -/
def baselineState : StateMainLoop := coreSt false 0 0 0

/-- A synthetic event as the X server echoes it back: a raw event with the
same button code. -/
def synthToRaw : SynthEvent → RawEvent
  | SynthEvent.press b => RawEvent.press b
  | SynthEvent.release b => RawEvent.release b

/-- One still tick in which the only raw events drained are the echoes of the
previous tick's synthetic events. -/
def echoStillStep (cfg : DwellConfig) (pb : Nat)
    (p : StateMainLoop × List SynthEvent) : StateMainLoop × List SynthEvent :=
  mainLoopCore cfg pb false (p.2.map synthToRaw) p.1

/-- `n` consecutive still ticks from `st0`, each seeing only the echo of the
previous tick's synthetic events; returns the state after tick `n` and the
events emitted on tick `n`. -/
def echoStillRun (cfg : DwellConfig) (pb : Nat) (st0 : StateMainLoop) :
    Nat → StateMainLoop × List SynthEvent
  | 0 => (st0, [])
  | n + 1 => echoStillStep cfg pb (echoStillRun cfg pb st0 n)

/-- Configuration with `dwell_ticks = 5` and dragging disabled
(`drag_time` left free). -/
def cfgNoDrag (drag_time : Nat) : DwellConfig :=
  { min_movement_pixels := 10
    dwell_time := 5
    drag_time := drag_time
    drag_enabled := false
    sound_enabled := true }

/-- Configuration with `dwell_ticks = 5`, `drag_ticks = 3`, dragging
enabled. -/
def cfgDrag : DwellConfig :=
  { min_movement_pixels := 10
    dwell_time := 5
    drag_time := 3
    drag_enabled := true
    sound_enabled := true }

/-- The scheduler's deadline-advance loop
(`while next_tick <= now { next_tick += tick_duration }`), with enough fuel
threaded in for structural recursion. -/
def advanceLoop : Nat → Nat → Nat → Nat
  | 0, next_tick, _ => next_tick
  | fuel + 1, next_tick, now =>
    if next_tick ≤ now then advanceLoop fuel (next_tick + TIMER_INTERVAL_MS) now
    else next_tick

/-- The advanced deadline: `now + 1 - next_tick` iterations always suffice
because every iteration moves `next_tick` up by `TIMER_INTERVAL_MS ≥ 1`. -/
def advanceDeadline (next_tick now : Nat) : Nat :=
  advanceLoop (now + 1 - next_tick) next_tick now

/-- Check a synthetic event stream for strict press/release alternation.
`altRun open l` threads whether a synthetic press is currently unmatched;
it returns the final such flag, or `none` if the stream ever has a release
with no open press or a second press before a release. -/
def altRun : Bool → List SynthEvent → Option Bool
  | b, [] => some b
  | false, SynthEvent.press _ :: rest => altRun true rest
  | true, SynthEvent.release _ :: rest => altRun false rest
  | _, _ => none

/-- Number of synthetic presses in a stream. -/
def pressCount : List SynthEvent → Nat
  | [] => 0
  | SynthEvent.press _ :: rest => pressCount rest + 1
  | SynthEvent.release _ :: rest => pressCount rest

/-- Number of synthetic releases in a stream. -/
def releaseCount : List SynthEvent → Nat
  | [] => 0
  | SynthEvent.press _ :: rest => releaseCount rest
  | SynthEvent.release _ :: rest => releaseCount rest + 1

end RtMouse

namespace RtMouse

/-! ## Bit-mask helper lemmas -/

lemma maskBit_eq (d : Nat) : maskBit d = 2 ^ (d % 64) := by
  simp [maskBit, Nat.shiftLeft_eq]

lemma maskBit_pos (d : Nat) : 0 < maskBit d := by
  rw [maskBit_eq]; exact Nat.two_pow_pos _

lemma maskBit_lt (d : Nat) : maskBit d < 2 ^ 64 := by
  rw [maskBit_eq]
  exact Nat.pow_lt_pow_right one_lt_two (Nat.mod_lt _ (by norm_num))

lemma testBit_high_false (a i : Nat) (h : a < 2 ^ 64) (hi : ¬ i < 64) :
    a.testBit i = false :=
  Nat.testBit_eq_false_of_lt
    (lt_of_lt_of_le h (Nat.pow_le_pow_right (by norm_num) (by omega)))

lemma and_not_self_u64 (a : Nat) (h : a < 2 ^ 64) :
    a &&& (a ^^^ (2 ^ 64 - 1)) = 0 := by
  apply Nat.eq_of_testBit_eq
  intro i
  simp only [Nat.testBit_land, Nat.testBit_xor, Nat.testBit_two_pow_sub_one,
    Nat.zero_testBit]
  by_cases hi : i < 64
  · simp [hi]
  · simp [testBit_high_false a i h hi]

lemma and_not_zero_u64 (a : Nat) (h : a < 2 ^ 64) :
    a &&& ((0 : Nat) ^^^ (2 ^ 64 - 1)) = a := by
  apply Nat.eq_of_testBit_eq
  intro i
  simp only [Nat.testBit_land, Nat.testBit_xor, Nat.testBit_two_pow_sub_one,
    Nat.zero_testBit]
  by_cases hi : i < 64
  · simp [hi]
  · simp [hi, testBit_high_false a i h hi]

/-! ## C6: press and release of the same button within one cycle -/

lemma c6_first_state (b : Nat) :
    (is_click_inhibited ⟨0, 0⟩ [RawEvent.press b, RawEvent.release b]).1
      = ⟨maskBit b, maskBit b⟩ := by
  simp [is_click_inhibited, applyRawEvent, Nat.zero_and, Nat.zero_or]

/-- C6: a raw press and release of the same button inside one drained cycle
still make that cycle report "inhibited" (the release is remembered in
`uninhibit_mask` but not applied), and the following cycle, with no further
events, reports "not inhibited" because the release is applied to
`inhibit_mask` only at the start of that cycle. -/
theorem press_release_one_cycle_lag (b : Nat) (hb : b < 64) :
    (is_click_inhibited ⟨0, 0⟩ [RawEvent.press b, RawEvent.release b]).2 = true ∧
    (is_click_inhibited ⟨0, 0⟩ [RawEvent.press b, RawEvent.release b]).1.inhibit_mask ≠ 0 ∧
    (is_click_inhibited
      (is_click_inhibited ⟨0, 0⟩ [RawEvent.press b, RawEvent.release b]).1 []).2 = false ∧
    (is_click_inhibited
      (is_click_inhibited ⟨0, 0⟩ [RawEvent.press b, RawEvent.release b]).1 []).1.inhibit_mask
      = 0 := by
  have h1 := c6_first_state b
  refine ⟨?_, ?_, ?_, ?_⟩
  · simp [is_click_inhibited, applyRawEvent, Nat.zero_and, Nat.zero_or,
      (maskBit_pos b).ne']
  · rw [h1]; exact (maskBit_pos b).ne'
  · rw [h1]
    have h0 : maskBit b &&& (maskBit b ^^^ 18446744073709551615) = 0 := by
      simpa using and_not_self_u64 _ (maskBit_lt b)
    simp [is_click_inhibited, h0]
  · rw [h1]
    have h0 : maskBit b &&& (maskBit b ^^^ 18446744073709551615) = 0 := by
      simpa using and_not_self_u64 _ (maskBit_lt b)
    simp [is_click_inhibited, h0]

/-- Witness for C6 at button 3. -/
theorem press_release_one_cycle_lag_witness :
    (is_click_inhibited ⟨0, 0⟩ [RawEvent.press 3, RawEvent.release 3]).2 = true ∧
    (is_click_inhibited ⟨0, 0⟩ [RawEvent.press 3, RawEvent.release 3]).1.inhibit_mask ≠ 0 ∧
    (is_click_inhibited
      (is_click_inhibited ⟨0, 0⟩ [RawEvent.press 3, RawEvent.release 3]).1 []).2 = false ∧
    (is_click_inhibited
      (is_click_inhibited ⟨0, 0⟩ [RawEvent.press 3, RawEvent.release 3]).1 []).1.inhibit_mask
      = 0 :=
  press_release_one_cycle_lag 3 (by decide)

/-! ## C9: 64-bit mask width and wrapped-shift conflation -/

/-- C9: the masks are fixed-width 64-bit sets updated by a shifted bit:
distinct codes below 64 get distinct bits, but (with the wrapped shift the
release-mode build performs) any code is conflated with its residue mod 64,
so a press of code 65 is indistinguishable from a press of button 1. -/
theorem mask_width_overflow :
    (∀ b1 b2 : Nat, b1 < 64 → b2 < 64 → b1 ≠ b2 → maskBit b1 ≠ maskBit b2) ∧
    (∀ c : Nat, maskBit c = maskBit (c % 64)) ∧
    maskBit 65 = maskBit 1 ∧
    (is_click_inhibited ⟨0, 0⟩ [RawEvent.press 65]).1
      = (is_click_inhibited ⟨0, 0⟩ [RawEvent.press 1]).1 := by
  refine ⟨?_, ?_, by decide, by decide⟩
  · intro b1 b2 h1 h2 hne
    rw [maskBit_eq, maskBit_eq, Nat.mod_eq_of_lt h1, Nat.mod_eq_of_lt h2]
    exact fun h => hne (Nat.pow_right_injective (le_refl 2) h)
  · intro c
    rw [maskBit_eq, maskBit_eq, Nat.mod_mod_of_dvd c dvd_rfl]

/-- Witness for C9: buttons 2 and 3 get distinct bits. -/
theorem mask_width_overflow_witness : maskBit 2 ≠ maskBit 3 :=
  mask_width_overflow.1 2 3 (by decide) (by decide) (by decide)

end RtMouse

namespace RtMouse

/-! ## C2: single click per dwell with dragging disabled -/

lemma c2_count (dt pb idle : Nat) (h : idle + 1 < 5) :
    mainLoopCore (cfgNoDrag dt) pb false [] (coreSt false idle 0 0)
      = (coreSt false (idle + 1) 0 0, []) := by
  have h1 : idle < max 5 dt + 1 := by omega
  have h2 : ¬(idle + 1 = 5) := by omega
  simp [mainLoopCore, stepIdleInc, stepInhibit, stepDwellClick, stepDragRelease,
    max_time, cfgNoDrag, coreSt, is_click_inhibited, Nat.zero_and, h1, h2]

lemma c2_run_le4 (dt pb : Nat) : ∀ k, k ≤ 4 →
    echoStillRun (cfgNoDrag dt) pb baselineState k = (coreSt false k 0 0, [])
  | 0, _ => by simp [echoStillRun, baselineState]
  | k + 1, hk => by
    have ih := c2_run_le4 dt pb k (by omega)
    show echoStillStep _ _ _ = _
    rw [ih]
    simpa [echoStillStep] using c2_count dt pb k (by omega)

lemma c2_run5 (dt pb : Nat) :
    echoStillRun (cfgNoDrag dt) pb baselineState 5
      = (coreSt false (max 5 dt + 1) 0 0,
          [SynthEvent.press pb, SynthEvent.release pb]) := by
  have h4 := c2_run_le4 dt pb 4 (by omega)
  have h1 : (4 : Nat) < max 5 dt + 1 := by omega
  show echoStillStep _ _ _ = _
  rw [h4]
  simp [echoStillStep, mainLoopCore, stepIdleInc, stepInhibit, stepDwellClick,
    stepDragRelease, max_time, cfgNoDrag, coreSt, is_click_inhibited,
    Nat.zero_and, h1]

lemma c2_run6 (dt pb : Nat) :
    echoStillRun (cfgNoDrag dt) pb baselineState 6
      = (coreSt false (max 5 dt + 1) (maskBit pb) (maskBit pb), []) := by
  have h5 := c2_run5 dt pb
  have hnotlt : ¬(max 5 dt + 1 < max 5 dt + 1) := by omega
  have hne5 : ¬(max 5 dt + 1 = 5) := by omega
  have hmask : maskBit pb ≠ 0 := (maskBit_pos pb).ne'
  show echoStillStep _ _ _ = _
  rw [h5]
  simp [echoStillStep, mainLoopCore, stepIdleInc, stepInhibit, stepDwellClick,
    stepDragRelease, max_time, cfgNoDrag, coreSt, is_click_inhibited,
    applyRawEvent, synthToRaw, Nat.zero_and, Nat.zero_or, hnotlt, hne5, hmask]

lemma c2_run7 (dt pb : Nat) :
    echoStillRun (cfgNoDrag dt) pb baselineState 7
      = (coreSt false (max 5 dt + 1) 0 0, []) := by
  have h6 := c2_run6 dt pb
  have hnotlt : ¬(max 5 dt + 1 < max 5 dt + 1) := by omega
  have hne5 : ¬(max 5 dt + 1 = 5) := by omega
  have h0 : maskBit pb &&& (maskBit pb ^^^ 18446744073709551615) = 0 := by
    simpa using and_not_self_u64 _ (maskBit_lt pb)
  show echoStillStep _ _ _ = _
  rw [h6]
  simp [echoStillStep, mainLoopCore, stepIdleInc, stepInhibit, stepDwellClick,
    stepDragRelease, max_time, cfgNoDrag, coreSt, is_click_inhibited,
    hnotlt, hne5, h0]

lemma c2_steady (dt pb : Nat) :
    echoStillStep (cfgNoDrag dt) pb (coreSt false (max 5 dt + 1) 0 0, [])
      = (coreSt false (max 5 dt + 1) 0 0, []) := by
  have hnotlt : ¬(max 5 dt + 1 < max 5 dt + 1) := by omega
  have hne5 : ¬(max 5 dt + 1 = 5) := by omega
  simp [echoStillStep, mainLoopCore, stepIdleInc, stepInhibit, stepDwellClick,
    stepDragRelease, max_time, cfgNoDrag, coreSt, is_click_inhibited,
    Nat.zero_and, hnotlt, hne5]

lemma c2_run_ge7 (dt pb n : Nat) (h : 7 ≤ n) :
    echoStillRun (cfgNoDrag dt) pb baselineState n
      = (coreSt false (max 5 dt + 1) 0 0, []) := by
  induction n with
  | zero => omega
  | succ k ih =>
    rcases Nat.lt_or_ge k 7 with h7 | h7
    · have hk : k + 1 = 7 := by omega
      rw [hk]
      exact c2_run7 dt pb
    · have hrec := ih h7
      show echoStillStep _ _ _ = _
      rw [hrec]
      exact c2_steady dt pb

/-- C2: with `dwell_ticks = 5` and dragging disabled, a run of consecutive
still ticks from a freshly moved baseline, whose only raw events are the
echoes of the daemon's own synthetic events, emits exactly one press
immediately followed by its release, on the 5th still tick, and nothing on
any other still tick of the run (for every `drag_time` and every primary
button code). -/
theorem dwell_click_fires_once (dt pb n : Nat) (hn : 1 ≤ n) :
    (echoStillRun (cfgNoDrag dt) pb baselineState n).2
      = if n = 5 then [SynthEvent.press pb, SynthEvent.release pb] else [] := by
  rcases Nat.lt_or_ge n 5 with h | h
  · rw [c2_run_le4 dt pb n (by omega)]
    simp [Nat.ne_of_lt h]
  · rcases Nat.lt_or_ge n 7 with h2 | h2
    · rcases Nat.lt_or_ge n 6 with h3 | h3
      · have : n = 5 := by omega
        subst this
        rw [c2_run5 dt pb]
        simp
      · have : n = 6 := by omega
        subst this
        rw [c2_run6 dt pb]
        simp
    · rw [c2_run_ge7 dt pb n h2]
      have : ¬(n = 5) := by omega
      simp [this]

/-- Witness for C2 with `drag_time = 5`, primary button 1, at the 5th tick. -/
theorem dwell_click_fires_once_witness :
    (echoStillRun (cfgNoDrag 5) 1 baselineState 5).2
      = if 5 = 5 then [SynthEvent.press 1, SynthEvent.release 1] else [] :=
  dwell_click_fires_once 5 1 5 (by decide)

end RtMouse

namespace RtMouse

/-! ## C3: drag press at the dwell threshold, release three ticks later -/

lemma c3_count (pb idle : Nat) (h : idle + 1 < 5) :
    mainLoopCore cfgDrag pb false [] (coreSt false idle 0 0)
      = (coreSt false (idle + 1) 0 0, []) := by
  have h1 : idle < 6 := by omega
  have h2 : ¬(idle + 1 = 5) := by omega
  simp [mainLoopCore, stepIdleInc, stepInhibit, stepDwellClick, stepDragRelease,
    max_time, cfgDrag, coreSt, is_click_inhibited, Nat.zero_and, h1, h2]

lemma c3_run_le4 (pb : Nat) : ∀ k, k ≤ 4 →
    echoStillRun cfgDrag pb baselineState k = (coreSt false k 0 0, [])
  | 0, _ => by simp [echoStillRun, baselineState]
  | k + 1, hk => by
    have ih := c3_run_le4 pb k (by omega)
    show echoStillStep _ _ _ = _
    rw [ih]
    simpa [echoStillStep] using c3_count pb k (by omega)

lemma c3_run5 (pb : Nat) :
    echoStillRun cfgDrag pb baselineState 5
      = (coreSt true 0 0 0, [SynthEvent.press pb]) := by
  have h4 := c3_run_le4 pb 4 (by omega)
  show echoStillStep _ _ _ = _
  rw [h4]
  simp [echoStillStep, mainLoopCore, stepIdleInc, stepInhibit, stepDwellClick,
    stepDragRelease, max_time, cfgDrag, coreSt, is_click_inhibited, Nat.zero_and]

lemma c3_run6 (pb : Nat) :
    echoStillRun cfgDrag pb baselineState 6
      = (coreSt true 1 (maskBit pb) 0, []) := by
  have h5 := c3_run5 pb
  have hmask : maskBit pb ≠ 0 := (maskBit_pos pb).ne'
  show echoStillStep _ _ _ = _
  rw [h5]
  simp [echoStillStep, mainLoopCore, stepIdleInc, stepInhibit, stepDwellClick,
    stepDragRelease, max_time, cfgDrag, coreSt, is_click_inhibited,
    applyRawEvent, synthToRaw, Nat.zero_and, Nat.zero_or, hmask]

lemma c3_run7 (pb : Nat) :
    echoStillRun cfgDrag pb baselineState 7
      = (coreSt true 2 (maskBit pb) 0, []) := by
  have h6 := c3_run6 pb
  have hmask : maskBit pb ≠ 0 := (maskBit_pos pb).ne'
  have hkeep : maskBit pb &&& 18446744073709551615 = maskBit pb := by
    simpa using and_not_zero_u64 _ (maskBit_lt pb)
  show echoStillStep _ _ _ = _
  rw [h6]
  simp [echoStillStep, mainLoopCore, stepIdleInc, stepInhibit, stepDwellClick,
    stepDragRelease, max_time, cfgDrag, coreSt, is_click_inhibited, hkeep, hmask]

lemma c3_run8 (pb : Nat) :
    echoStillRun cfgDrag pb baselineState 8
      = (coreSt false 6 (maskBit pb) 0, [SynthEvent.release pb]) := by
  have h7 := c3_run7 pb
  have hmask : maskBit pb ≠ 0 := (maskBit_pos pb).ne'
  have hkeep : maskBit pb &&& 18446744073709551615 = maskBit pb := by
    simpa using and_not_zero_u64 _ (maskBit_lt pb)
  show echoStillStep _ _ _ = _
  rw [h7]
  simp [echoStillStep, mainLoopCore, stepIdleInc, stepInhibit, stepDwellClick,
    stepDragRelease, max_time, cfgDrag, coreSt, is_click_inhibited, hkeep, hmask]

lemma c3_run9 (pb : Nat) :
    echoStillRun cfgDrag pb baselineState 9
      = (coreSt false 6 (maskBit pb) (maskBit pb), []) := by
  have h8 := c3_run8 pb
  have hmask : maskBit pb ≠ 0 := (maskBit_pos pb).ne'
  have hkeep : maskBit pb &&& 18446744073709551615 = maskBit pb := by
    simpa using and_not_zero_u64 _ (maskBit_lt pb)
  show echoStillStep _ _ _ = _
  rw [h8]
  simp [echoStillStep, mainLoopCore, stepIdleInc, stepInhibit, stepDwellClick,
    stepDragRelease, max_time, cfgDrag, coreSt, is_click_inhibited,
    applyRawEvent, synthToRaw, Nat.zero_or, hkeep, hmask]

lemma c3_run10 (pb : Nat) :
    echoStillRun cfgDrag pb baselineState 10
      = (coreSt false 6 0 0, []) := by
  have h9 := c3_run9 pb
  have h0 : maskBit pb &&& (maskBit pb ^^^ 18446744073709551615) = 0 := by
    simpa using and_not_self_u64 _ (maskBit_lt pb)
  show echoStillStep _ _ _ = _
  rw [h9]
  simp [echoStillStep, mainLoopCore, stepIdleInc, stepInhibit, stepDwellClick,
    stepDragRelease, max_time, cfgDrag, coreSt, is_click_inhibited, h0]

lemma c3_steady (pb : Nat) :
    echoStillStep cfgDrag pb (coreSt false 6 0 0, [])
      = (coreSt false 6 0 0, []) := by
  simp [echoStillStep, mainLoopCore, stepIdleInc, stepInhibit, stepDwellClick,
    stepDragRelease, max_time, cfgDrag, coreSt, is_click_inhibited, Nat.zero_and]

lemma c3_run_ge10 (pb n : Nat) (h : 10 ≤ n) :
    echoStillRun cfgDrag pb baselineState n = (coreSt false 6 0 0, []) := by
  induction n with
  | zero => omega
  | succ k ih =>
    rcases Nat.lt_or_ge k 10 with h10 | h10
    · have hk : k + 1 = 10 := by omega
      rw [hk]
      exact c3_run10 pb
    · have hrec := ih h10
      show echoStillStep _ _ _ = _
      rw [hrec]
      exact c3_steady pb

/-- C3: with dragging enabled, `dwell_ticks = 5`, `drag_ticks = 3`, a run of
consecutive still ticks from a freshly moved baseline whose only raw events
are the echoes of the daemon's own synthetic events emits a single press at
the 5th still tick and the matching release exactly 3 ticks later, with no
synthetic event on any other tick; moreover the drag's own press is visible
in the inhibition tracker's mask on the following tick (the drag exemption
keeps it from cancelling the drag). -/
theorem drag_press_then_release (pb n : Nat) (hn : 1 ≤ n) :
    (echoStillRun cfgDrag pb baselineState n).2
      = (if n = 5 then [SynthEvent.press pb]
        else if n = 8 then [SynthEvent.release pb] else []) ∧
    (echoStillRun cfgDrag pb baselineState 6).1.st_is_click_inhibited.inhibit_mask
      ≠ 0 := by
  constructor
  · rcases Nat.lt_or_ge n 5 with h | h
    · have hne5 : ¬(n = 5) := by omega
      have hne8 : ¬(n = 8) := by omega
      rw [c3_run_le4 pb n (by omega)]
      simp [hne5, hne8]
    · rcases Nat.lt_or_ge n 10 with h2 | h2
      · have h5 : n = 5 ∨ n = 6 ∨ n = 7 ∨ n = 8 ∨ n = 9 := by omega
        rcases h5 with rfl | rfl | rfl | rfl | rfl
        · rw [c3_run5 pb]; simp
        · rw [c3_run6 pb]; simp
        · rw [c3_run7 pb]; simp
        · rw [c3_run8 pb]; simp
        · rw [c3_run9 pb]; simp
      · rw [c3_run_ge10 pb n h2]
        have hne5 : ¬(n = 5) := by omega
        have hne8 : ¬(n = 8) := by omega
        simp [hne5, hne8]
  · rw [c3_run6 pb]
    simp [coreSt]
    exact (maskBit_pos pb).ne'

/-- Witness for C3 at the release tick, primary button 1. -/
theorem drag_press_then_release_witness :
    (echoStillRun cfgDrag 1 baselineState 8).2
      = (if 8 = 5 then [SynthEvent.press 1]
        else if 8 = 8 then [SynthEvent.release 1] else []) ∧
    (echoStillRun cfgDrag 1 baselineState 6).1.st_is_click_inhibited.inhibit_mask
      ≠ 0 :=
  drag_press_then_release 1 8 (by decide)

end RtMouse

namespace RtMouse

/-! ## Structural lemmas about one tick -/

lemma mainLoopCore_still (cfg : DwellConfig) (pb : Nat) (events : List RawEvent)
    (st : StateMainLoop) :
    mainLoopCore cfg pb false events st
      = ((stepDragRelease cfg pb
            (stepDwellClick cfg pb (stepInhibit cfg events (stepIdleInc cfg st))).1).1,
        (stepDwellClick cfg pb (stepInhibit cfg events (stepIdleInc cfg st))).2
          ++ (stepDragRelease cfg pb
            (stepDwellClick cfg pb (stepInhibit cfg events (stepIdleInc cfg st))).1).2) :=
  rfl

lemma mainLoopCore_moving (cfg : DwellConfig) (pb : Nat) (events : List RawEvent)
    (st : StateMainLoop) :
    mainLoopCore cfg pb true events st
      = if st.st_active.just_became_active then
          ({ st with st_active := { st.st_active with just_became_active := false }
                     idle_timer := max_time cfg + 1 }, [])
        else ({ st with idle_timer := 0 }, []) :=
  rfl

lemma stepIdleInc_active (cfg : DwellConfig) (st : StateMainLoop) :
    (stepIdleInc cfg st).st_active = st.st_active := by
  unfold stepIdleInc
  split <;> rfl

lemma stepInhibit_active (cfg : DwellConfig) (events : List RawEvent)
    (st : StateMainLoop) :
    (stepInhibit cfg events st).st_active = st.st_active := by
  unfold stepInhibit
  dsimp only
  split <;> rfl

lemma stepDwellClick_active (cfg : DwellConfig) (pb : Nat) (st : StateMainLoop) :
    (stepDwellClick cfg pb st).1.st_active = st.st_active := by
  unfold stepDwellClick
  split
  · split <;> rfl
  · rfl

lemma stepDragRelease_active (cfg : DwellConfig) (pb : Nat) (st : StateMainLoop) :
    (stepDragRelease cfg pb st).1.st_active = st.st_active := by
  unfold stepDragRelease
  split <;> rfl

lemma core_still_preserves_active (cfg : DwellConfig) (pb : Nat)
    (events : List RawEvent) (st : StateMainLoop) :
    (mainLoopCore cfg pb false events st).1.st_active = st.st_active := by
  rw [mainLoopCore_still]
  dsimp only
  rw [stepDragRelease_active, stepDwellClick_active, stepInhibit_active,
    stepIdleInc_active]

/-! ## C1: the activation guard only runs on a moving tick -/

def stillInput : TickInput :=
  { root_x := 0, root_y := 0, events := [], primary_button := 1 }

def movingInput : TickInput :=
  { root_x := 100, root_y := 0, events := [], primary_button := 1 }

/-- C1 counterexample: from the startup state (which has
`just_became_active = true`), five ticks classified as still leave the flag
set — the first evaluated tick does NOT clear it — and a synthetic press is
emitted on the 5th tick purely from carried-over stillness, while the flag
is still set. -/
theorem activation_guard_counterexample :
    (runMainLoop CONFIG initState
        (List.replicate 5 stillInput)).1.st_active.just_became_active = true ∧
    (runMainLoop CONFIG initState (List.replicate 5 stillInput)).2
      = [SynthEvent.press 1] := by decide

/-- C1 amended: the activation guard runs only on a tick classified as
moving: there it clears `just_became_active`, sets `idle_timer` to
`max_time + 1` (strictly above both the dwell and the drag threshold) and
emits nothing; on a tick classified as still the flag survives untouched and
normal dwell processing proceeds on the stale `idle_timer`. -/
theorem activation_guard_moving_only (cfg : DwellConfig) (pb : Nat)
    (events : List RawEvent) (st : StateMainLoop)
    (hjba : st.st_active.just_became_active = true) :
    (mainLoopCore cfg pb true events st).1.st_active.just_became_active = false ∧
    (mainLoopCore cfg pb true events st).1.idle_timer = max_time cfg + 1 ∧
    cfg.dwell_time < max_time cfg + 1 ∧
    cfg.drag_time < max_time cfg + 1 ∧
    (mainLoopCore cfg pb true events st).2 = [] ∧
    (mainLoopCore cfg pb false events st).1.st_active.just_became_active
      = true := by
  refine ⟨?_, ?_, ?_, ?_, ?_, ?_⟩
  · simp [mainLoopCore_moving, hjba]
  · simp [mainLoopCore_moving, hjba]
  · simp [max_time]
    omega
  · simp [max_time]
    omega
  · simp [mainLoopCore_moving, hjba]
  · rw [core_still_preserves_active]
    exact hjba

/-- Witness for the amended C1 at a concrete state and configuration. -/
theorem activation_guard_moving_only_witness :
    (mainLoopCore CONFIG 1 true [] initState).1.st_active.just_became_active
      = false ∧
    (mainLoopCore CONFIG 1 true [] initState).1.idle_timer = max_time CONFIG + 1 ∧
    CONFIG.dwell_time < max_time CONFIG + 1 ∧
    CONFIG.drag_time < max_time CONFIG + 1 ∧
    (mainLoopCore CONFIG 1 true [] initState).2 = [] ∧
    (mainLoopCore CONFIG 1 false [] initState).1.st_active.just_became_active
      = true :=
  activation_guard_moving_only CONFIG 1 [] initState (by decide)

/-! ## C5: the idle-timer bound -/

/-- C5 counterexample: from the startup state (reachable by definition), a
single tick classified as moving while `just_became_active` is set leaves
`idle_timer` at `max(dwell_time, drag_time) + 2`, strictly above the cap of
`max(dwell_time, drag_time) + 1` the claim states. -/
theorem idle_cap_counterexample :
    (runMainLoop CONFIG initState [movingInput]).1.idle_timer
      = max CONFIG.dwell_time CONFIG.drag_time + 2 ∧
    ¬((runMainLoop CONFIG initState [movingInput]).1.idle_timer
        ≤ max CONFIG.dwell_time CONFIG.drag_time + 1) := by decide

lemma stepIdleInc_idle_le (cfg : DwellConfig) (st : StateMainLoop)
    (h : st.idle_timer ≤ max_time cfg + 1) :
    (stepIdleInc cfg st).idle_timer ≤ max_time cfg + 1 := by
  unfold stepIdleInc
  split
  · simp
    omega
  · exact h

lemma stepInhibit_idle_le (cfg : DwellConfig) (events : List RawEvent)
    (st : StateMainLoop) (h : st.idle_timer ≤ max_time cfg + 1) :
    (stepInhibit cfg events st).idle_timer ≤ max_time cfg + 1 := by
  unfold stepInhibit
  dsimp only
  split
  · simp
  · exact h

lemma stepDwellClick_idle_le (cfg : DwellConfig) (pb : Nat) (st : StateMainLoop)
    (h : st.idle_timer ≤ max_time cfg + 1) :
    (stepDwellClick cfg pb st).1.idle_timer ≤ max_time cfg + 1 := by
  unfold stepDwellClick
  split
  · split <;> simp
  · simpa using h

lemma stepDragRelease_idle_le (cfg : DwellConfig) (pb : Nat) (st : StateMainLoop)
    (h : st.idle_timer ≤ max_time cfg + 1) :
    (stepDragRelease cfg pb st).1.idle_timer ≤ max_time cfg + 1 := by
  unfold stepDragRelease
  split
  · simp
  · simpa using h

lemma mainLoopCore_idle_le (cfg : DwellConfig) (pb : Nat) (moving : Bool)
    (events : List RawEvent) (st : StateMainLoop)
    (h : st.idle_timer ≤ max_time cfg + 1) :
    (mainLoopCore cfg pb moving events st).1.idle_timer ≤ max_time cfg + 1 := by
  cases moving
  · rw [mainLoopCore_still]
    dsimp only
    exact stepDragRelease_idle_le cfg pb _
      (stepDwellClick_idle_le cfg pb _
        (stepInhibit_idle_le cfg events _ (stepIdleInc_idle_le cfg st h)))
  · rw [mainLoopCore_moving]
    split <;> simp

lemma main_loop_idle_le (cfg : DwellConfig) (inp : TickInput)
    (st : StateMainLoop) (h : st.idle_timer ≤ max_time cfg + 1) :
    (main_loop cfg inp st).1.idle_timer ≤ max_time cfg + 1 := by
  unfold main_loop
  split
  · simpa using h
  · exact mainLoopCore_idle_le cfg inp.primary_button _ inp.events _ h

lemma runMainLoop_idle_le (cfg : DwellConfig) :
    ∀ (st : StateMainLoop), st.idle_timer ≤ max_time cfg + 1 →
    ∀ inputs, (runMainLoop cfg st inputs).1.idle_timer ≤ max_time cfg + 1
  | _, h, [] => h
  | st, h, inp :: rest =>
    runMainLoop_idle_le cfg _ (main_loop_idle_le cfg inp st h) rest

/-- C5 amended: along every run from the startup state, after every tick
`idle_timer` is at most `max(dwell_time, drag_time) + 2`; the spec's cap of
`max(dwell_time, drag_time) + 1` holds on the increment, inhibition and
click paths, but the activation guard deliberately parks the timer one above
it. -/
theorem idle_timer_capped (cfg : DwellConfig) (inputs : List TickInput) :
    (runMainLoop cfg initState inputs).1.idle_timer
      ≤ max cfg.dwell_time cfg.drag_time + 2 := by
  have h := runMainLoop_idle_le cfg initState (by simp [initState]) inputs
  simp [max_time] at h
  omega

end RtMouse

namespace RtMouse

/-! ## C10: synthetic press/release alternation -/

lemma altRun_append (l1 l2 : List SynthEvent) : ∀ b,
    altRun b (l1 ++ l2) = (altRun b l1).bind (fun b2 => altRun b2 l2) := by
  induction l1 with
  | nil => intro b; cases b <;> rfl
  | cons e rest ih =>
    intro b
    cases b <;> cases e <;> simp [altRun, ih]

lemma stepInhibit_we (cfg : DwellConfig) (events : List RawEvent)
    (st : StateMainLoop) :
    (stepInhibit cfg events st).we_are_dragging_mouse = st.we_are_dragging_mouse := by
  unfold stepInhibit
  dsimp only
  split <;> rfl

lemma stepIdleInc_we (cfg : DwellConfig) (st : StateMainLoop) :
    (stepIdleInc cfg st).we_are_dragging_mouse = st.we_are_dragging_mouse := by
  unfold stepIdleInc
  split <;> rfl

lemma dwell_drag_alt (cfg : DwellConfig) (pb : Nat) (st : StateMainLoop) :
    altRun st.we_are_dragging_mouse
        ((stepDwellClick cfg pb st).2
          ++ (stepDragRelease cfg pb (stepDwellClick cfg pb st).1).2)
      = some ((stepDragRelease cfg pb
          (stepDwellClick cfg pb st).1).1.we_are_dragging_mouse) := by
  unfold stepDwellClick stepDragRelease
  by_cases h1 : st.idle_timer = cfg.dwell_time ∧ st.we_are_dragging_mouse = false
  · rw [if_pos h1]
    by_cases h2 : cfg.drag_enabled = true
    · simp only [h2, if_true]
      by_cases h3 : (0 : Nat) = cfg.drag_time
      · simp [← h3, h1.2, altRun]
      · simp [h3, h1.2, altRun]
    · simp only [h2, if_false]
      simp [h1.2, altRun]
  · rw [if_neg h1]
    by_cases h3 : st.idle_timer = cfg.drag_time ∧ st.we_are_dragging_mouse = true
    · simp [h3, h3.2, altRun]
    · simp [h3, altRun]

lemma mainLoopCore_alt (cfg : DwellConfig) (pb : Nat) (moving : Bool)
    (events : List RawEvent) (st : StateMainLoop) :
    altRun st.we_are_dragging_mouse (mainLoopCore cfg pb moving events st).2
      = some ((mainLoopCore cfg pb moving events st).1.we_are_dragging_mouse) := by
  cases moving
  · rw [mainLoopCore_still]
    dsimp only
    rw [show st.we_are_dragging_mouse
        = (stepInhibit cfg events (stepIdleInc cfg st)).we_are_dragging_mouse by
      rw [stepInhibit_we, stepIdleInc_we]]
    exact dwell_drag_alt cfg pb _
  · rw [mainLoopCore_moving]
    split <;> simp [altRun]

lemma main_loop_alt (cfg : DwellConfig) (inp : TickInput) (st : StateMainLoop) :
    altRun st.we_are_dragging_mouse (main_loop cfg inp st).2
      = some ((main_loop cfg inp st).1.we_are_dragging_mouse) := by
  unfold main_loop
  split
  · simp [altRun]
  · have h := mainLoopCore_alt cfg inp.primary_button
      (is_cursor_moving cfg st.st_is_cursor_moving inp.root_x inp.root_y).moving
      inp.events
      { st with st_is_cursor_moving :=
          is_cursor_moving cfg st.st_is_cursor_moving inp.root_x inp.root_y }
    simpa using h

lemma altRun_counts : ∀ (l : List SynthEvent) (b b2 : Bool),
    altRun b l = some b2 →
    pressCount l + (if b then 1 else 0)
      = releaseCount l + (if b2 then 1 else 0) := by
  intro l
  induction l with
  | nil =>
    intro b b2 h
    simp [altRun] at h
    subst h
    rfl
  | cons e rest ih =>
    intro b b2 h
    cases b <;> cases e <;> simp only [altRun] at h <;>
      simp only [pressCount, releaseCount]
    · have := ih _ _ h
      simp at this ⊢
      omega
    · exact absurd h (by simp)
    · exact absurd h (by simp)
    · have := ih _ _ h
      simp at this ⊢
      omega

lemma runMainLoop_alt (cfg : DwellConfig) :
    ∀ (st : StateMainLoop) (inputs : List TickInput),
    altRun st.we_are_dragging_mouse (runMainLoop cfg st inputs).2
      = some ((runMainLoop cfg st inputs).1.we_are_dragging_mouse)
  | st, [] => by cases hb : st.we_are_dragging_mouse <;> simp [runMainLoop, altRun, hb]
  | st, inp :: rest => by
    have h1 := main_loop_alt cfg inp st
    have h2 := runMainLoop_alt cfg (main_loop cfg inp st).1 rest
    show altRun st.we_are_dragging_mouse
        ((main_loop cfg inp st).2
          ++ (runMainLoop cfg (main_loop cfg inp st).1 rest).2)
      = some ((runMainLoop cfg (main_loop cfg inp st).1 rest).1.we_are_dragging_mouse)
    rw [altRun_append, h1]
    simpa using h2

/-- C10: along every run from the startup state the synthetic stream strictly
alternates press/release starting with a press (`altRun` succeeds), the
final alternation state equals `we_are_dragging_mouse`, and the number of
synthetic presses equals the number of releases, plus one exactly when a
drag is in progress — in particular the daemon never emits two presses
without an intervening release. -/
theorem synthetic_press_release_balanced (cfg : DwellConfig)
    (inputs : List TickInput) :
    altRun false (runMainLoop cfg initState inputs).2
      = some ((runMainLoop cfg initState inputs).1.we_are_dragging_mouse) ∧
    pressCount (runMainLoop cfg initState inputs).2
      = releaseCount (runMainLoop cfg initState inputs).2
        + (if (runMainLoop cfg initState inputs).1.we_are_dragging_mouse
            then 1 else 0) := by
  have h := runMainLoop_alt cfg initState inputs
  rw [show initState.we_are_dragging_mouse = false from rfl] at h
  refine ⟨h, ?_⟩
  have h2 := altRun_counts _ _ _ h
  simpa using h2

end RtMouse

namespace RtMouse

/-! ## Motion detector: relating the wrapped arithmetic to exact integers -/

lemma wrap32_eq_self (v : Int) (h1 : -(2 ^ 31) ≤ v) (h2 : v < 2 ^ 31) :
    wrap32 v = v := by
  unfold wrap32
  rw [Int.emod_eq_of_lt (by omega) (by omega)]
  omega

lemma asU32_wrap32 (v : Int) : asU32 (wrap32 v) = asU32 v := by
  unfold asU32 wrap32
  congr 1
  have h1 : ((2 : ℤ) ^ 31) % 2 ^ 32 = 2 ^ 31 := by norm_num
  calc ((v + 2 ^ 31) % 2 ^ 32 - 2 ^ 31) % 2 ^ 32
      = ((v + 2 ^ 31) % 2 ^ 32 - (2 ^ 31) % 2 ^ 32) % 2 ^ 32 := by rw [h1]
    _ = (v + 2 ^ 31 - 2 ^ 31) % 2 ^ 32 := (Int.sub_emod _ _ _).symm
    _ = v % 2 ^ 32 := by rw [add_sub_cancel_right]

lemma asU32_small (v : Int) (h0 : 0 ≤ v) (h : v < 2 ^ 32) :
    asU32 v = v.toNat := by
  unfold asU32
  rw [Int.emod_eq_of_lt h0 h]

lemma motion_cond_iff (t : Nat) (dx dy : Int)
    (ht : t ≤ 2 ^ 15) (hdx : dx.natAbs ≤ 2 ^ 15) (hdy : dy.natAbs ≤ 2 ^ 15) :
    (u32mul t t < asU32 (wrap32 (wrap32 (dx * dx) + wrap32 (dy * dy))))
      ↔ ((t : Int) ^ 2 < dx ^ 2 + dy ^ 2) := by
  have hdxs : ((dx.natAbs * dx.natAbs : ℕ) : ℤ) = dx * dx := Int.natAbs_mul_self
  have hdys : ((dy.natAbs * dy.natAbs : ℕ) : ℤ) = dy * dy := Int.natAbs_mul_self
  have hbx : dx.natAbs * dx.natAbs ≤ 2 ^ 30 := by
    calc dx.natAbs * dx.natAbs ≤ 2 ^ 15 * 2 ^ 15 := Nat.mul_le_mul hdx hdx
      _ = 2 ^ 30 := by norm_num
  have hby : dy.natAbs * dy.natAbs ≤ 2 ^ 30 := by
    calc dy.natAbs * dy.natAbs ≤ 2 ^ 15 * 2 ^ 15 := Nat.mul_le_mul hdy hdy
      _ = 2 ^ 30 := by norm_num
  have hw1 : wrap32 (dx * dx) = dx * dx := wrap32_eq_self _ (by omega) (by omega)
  have hw2 : wrap32 (dy * dy) = dy * dy := wrap32_eq_self _ (by omega) (by omega)
  rw [hw1, hw2, asU32_wrap32, asU32_small _ (by omega) (by omega)]
  have htt : t * t ≤ 2 ^ 30 := by
    calc t * t ≤ 2 ^ 15 * 2 ^ 15 := Nat.mul_le_mul ht ht
      _ = 2 ^ 30 := by norm_num
  have hu : u32mul t t = t * t := Nat.mod_eq_of_lt (by omega)
  rw [hu]
  have hpow : ((t : Int)) ^ 2 = ((t * t : ℕ) : ℤ) := by
    rw [pow_two]
    push_cast
    ring
  rw [hpow, pow_two, pow_two]
  exact Int.lt_toNat

lemma motion_spec (cfg : DwellConfig) (st : StateIsCursorMoving) (x y : Int)
    (hmin : cfg.min_movement_pixels ≤ 2 ^ 15)
    (hdx : (x - st.old_x).natAbs ≤ 2 ^ 15)
    (hdy : (y - st.old_y).natAbs ≤ 2 ^ 15) :
    is_cursor_moving cfg st x y
      = if (((if st.moving then 1 else cfg.min_movement_pixels : Nat)) : Int) ^ 2
            < (x - st.old_x) ^ 2 + (y - st.old_y) ^ 2
        then { old_x := x, old_y := y, moving := true }
        else { st with moving := false } := by
  have ht : (if st.moving then 1 else cfg.min_movement_pixels) ≤ 2 ^ 15 := by
    split
    · norm_num
    · exact hmin
  have key := motion_cond_iff (if st.moving then 1 else cfg.min_movement_pixels)
    (x - st.old_x) (y - st.old_y) ht hdx hdy
  have hwx : wrap32 (x - st.old_x) = x - st.old_x :=
    wrap32_eq_self _ (by omega) (by omega)
  have hwy : wrap32 (y - st.old_y) = y - st.old_y :=
    wrap32_eq_self _ (by omega) (by omega)
  unfold is_cursor_moving
  simp only [hwx, hwy, key, decide_eq_true_eq]

end RtMouse

namespace RtMouse

/-! ## C4: the movement threshold is strict -/

/-- C4 counterexample: with `min_movement_pixels = 10` and a previously-still
detector anchored at the origin, a displacement of exactly 10 pixels (equal
to the threshold, hence `≥ min_movement_pixels`) is classified as still, not
moving, because the source compares with a strict `>`. -/
theorem motion_threshold_boundary_counterexample :
    (is_cursor_moving CONFIG { old_x := 0, old_y := 0, moving := false } 10 0).moving
      = false ∧
    ((10 : Int) - 0) ^ 2 + ((0 : Int) - 0) ^ 2
      = ((CONFIG.min_movement_pixels : Int)) ^ 2 := by
  constructor
  · decide
  · norm_num [CONFIG]

/-- C4 amended: for a previously-still detector, a displacement whose square
STRICTLY exceeds `min_movement_pixels ^ 2` (the source's `>` comparison) is
classified as moving, the stable anchor is replaced by the new position, the
state machine resets `idle_timer` to 0 on that tick (when
`just_became_active` is already clear) and emits nothing, and on the
immediately following tick the detector's threshold is 1 pixel (strict).
The `2 ^ 15` bounds keep the `i32`/`u32` arithmetic of the source exact. -/
theorem motion_strict_threshold (cfg : DwellConfig) (st : StateIsCursorMoving)
    (x y : Int) (hstill : st.moving = false)
    (hmin : cfg.min_movement_pixels ≤ 2 ^ 15)
    (hdx : (x - st.old_x).natAbs ≤ 2 ^ 15)
    (hdy : (y - st.old_y).natAbs ≤ 2 ^ 15)
    (hmove : ((cfg.min_movement_pixels : Int)) ^ 2
      < (x - st.old_x) ^ 2 + (y - st.old_y) ^ 2) :
    (is_cursor_moving cfg st x y).moving = true ∧
    (is_cursor_moving cfg st x y).old_x = x ∧
    (is_cursor_moving cfg st x y).old_y = y ∧
    (∀ x2 y2 : Int, (x2 - x).natAbs ≤ 2 ^ 15 → (y2 - y).natAbs ≤ 2 ^ 15 →
      (is_cursor_moving cfg (is_cursor_moving cfg st x y) x2 y2).moving
        = decide ((1 : Int) < (x2 - x) ^ 2 + (y2 - y) ^ 2)) ∧
    (∀ (pb : Nat) (events : List RawEvent) (S : StateMainLoop),
      S.st_active.just_became_active = false →
      (mainLoopCore cfg pb (is_cursor_moving cfg st x y).moving events S).1.idle_timer
          = 0 ∧
      (mainLoopCore cfg pb (is_cursor_moving cfg st x y).moving events S).2
          = []) := by
  have hspec := motion_spec cfg st x y hmin hdx hdy
  rw [hstill] at hspec
  simp only [if_false, Bool.false_eq_true] at hspec
  rw [if_pos hmove] at hspec
  refine ⟨by rw [hspec], by rw [hspec], by rw [hspec], ?_, ?_⟩
  · intro x2 y2 hdx2 hdy2
    rw [hspec]
    have hone : (1 : Nat) ≤ 2 ^ 15 := by norm_num
    have hspec2 := motion_spec cfg { old_x := x, old_y := y, moving := true }
      x2 y2 hmin (by simpa using hdx2) (by simpa using hdy2)
    simp only [if_true] at hspec2
    rw [hspec2]
    by_cases hc : (1 : Int) < (x2 - x) ^ 2 + (y2 - y) ^ 2
    · rw [if_pos (by simpa using hc)]
      simp [hc]
    · rw [if_neg (by simpa using hc)]
      simp [hc]
  · intro pb events S hS
    rw [hspec]
    constructor
    · rw [mainLoopCore_moving]
      simp [hS]
    · rw [mainLoopCore_moving]
      simp [hS]

/-- Witness for the amended C4: anchor at the origin, displacement 11 > 10. -/
theorem motion_strict_threshold_witness :
    (is_cursor_moving CONFIG { old_x := 0, old_y := 0, moving := false } 11 0).moving
      = true :=
  (motion_strict_threshold CONFIG { old_x := 0, old_y := 0, moving := false }
    11 0 rfl (by norm_num [CONFIG]) (by norm_num) (by norm_num)
    (by norm_num [CONFIG])).1

end RtMouse

namespace RtMouse

/-! ## C7: stillness below threshold counts the idle timer up -/

/-- C7 counterexample: from a post-movement baseline with the claim's
premises satisfied (pointer displacement 0 < 10, no raw events,
`just_became_active` clear), `idle_timer` is 4 after four still ticks but 0
after five: at `dwell_time = 5` the click logic fires and resets it, so it
never "strictly increases by exactly 1 per tick until it reaches the
saturation cap" (which is 6 here and is never reached by increments). -/
theorem still_run_idle_jump_counterexample :
    (runMainLoop CONFIG (coreSt false 0 0 0)
        (List.replicate 4 stillInput)).1.idle_timer = 4 ∧
    (runMainLoop CONFIG (coreSt false 0 0 0)
        (List.replicate 5 stillInput)).1.idle_timer = 0 ∧
    CONFIG.dwell_time = 5 ∧
    max CONFIG.dwell_time CONFIG.drag_time + 1 = 6 := by decide

lemma c7_tick (cfg : DwellConfig) (inp : TickInput) (st : StateMainLoop)
    (hact : st.st_active.active = true)
    (hjba : st.st_active.just_became_active = false)
    (hdrag : st.we_are_dragging_mouse = false)
    (him : st.st_is_click_inhibited.inhibit_mask = 0)
    (hum : st.st_is_click_inhibited.uninhibit_mask = 0)
    (hmov : st.st_is_cursor_moving.moving = false)
    (hmin : cfg.min_movement_pixels ≤ 2 ^ 15)
    (hev : inp.events = [])
    (hdx : (inp.root_x - st.st_is_cursor_moving.old_x).natAbs ≤ 2 ^ 15)
    (hdy : (inp.root_y - st.st_is_cursor_moving.old_y).natAbs ≤ 2 ^ 15)
    (hdisp : (inp.root_x - st.st_is_cursor_moving.old_x) ^ 2
        + (inp.root_y - st.st_is_cursor_moving.old_y) ^ 2
      < ((cfg.min_movement_pixels : Int)) ^ 2)
    (hidle : st.idle_timer + 1 < cfg.dwell_time) :
    main_loop cfg inp st = ({ st with idle_timer := st.idle_timer + 1 }, []) := by
  obtain ⟨we, idle, ⟨act, jba⟩, ⟨im, um⟩, ⟨ox, oy, mv⟩⟩ := st
  simp only at hact hjba hdrag him hum hmov hdx hdy hdisp hidle
  subst hact hjba hdrag him hum hmov
  have hspec := motion_spec cfg ⟨ox, oy, false⟩ inp.root_x inp.root_y hmin hdx hdy
  simp only [if_false, Bool.false_eq_true] at hspec
  rw [if_neg (not_lt.mpr hdisp.le)] at hspec
  have hlt : idle < max_time cfg := by
    have := le_max_left cfg.dwell_time cfg.drag_time
    simp only [max_time]
    omega
  have hne : ¬(idle + 1 = cfg.dwell_time) := by omega
  unfold main_loop
  simp [hspec, hev, mainLoopCore, stepIdleInc, stepInhibit, stepDwellClick,
    stepDragRelease, is_click_inhibited, Nat.zero_and, hlt, hne]

/-- C7 amended: for every run of ticks whose positions stay strictly within
`min_movement_pixels` of the stored anchor, with no raw events, clean masks,
no drag in progress and `just_became_active` already clear, every tick is
classified as still, the anchor is never updated, nothing is emitted, and
`idle_timer` increases by exactly 1 per tick — for as long as it stays below
`dwell_time` (once it reaches `dwell_time` the click logic reassigns it, so
the stated "up to the saturation cap" does not hold). -/
theorem still_run_counts_up (cfg : DwellConfig) :
    ∀ (st : StateMainLoop) (inputs : List TickInput),
    st.st_active.active = true →
    st.st_active.just_became_active = false →
    st.we_are_dragging_mouse = false →
    st.st_is_click_inhibited.inhibit_mask = 0 →
    st.st_is_click_inhibited.uninhibit_mask = 0 →
    st.st_is_cursor_moving.moving = false →
    cfg.min_movement_pixels ≤ 2 ^ 15 →
    (∀ inp ∈ inputs, inp.events = []
      ∧ (inp.root_x - st.st_is_cursor_moving.old_x).natAbs ≤ 2 ^ 15
      ∧ (inp.root_y - st.st_is_cursor_moving.old_y).natAbs ≤ 2 ^ 15
      ∧ (inp.root_x - st.st_is_cursor_moving.old_x) ^ 2
          + (inp.root_y - st.st_is_cursor_moving.old_y) ^ 2
        < ((cfg.min_movement_pixels : Int)) ^ 2) →
    st.idle_timer + inputs.length < cfg.dwell_time →
    runMainLoop cfg st inputs
      = ({ st with idle_timer := st.idle_timer + inputs.length }, [])
  | st, [], hact, hjba, hdrag, him, hum, hmov, hmin, hin, hidle => by
    obtain ⟨we, idle, sa, sc, sm⟩ := st
    simp [runMainLoop]
  | st, inp :: rest, hact, hjba, hdrag, him, hum, hmov, hmin, hin, hidle => by
    have hhead := hin inp (by simp)
    have htick := c7_tick cfg inp st hact hjba hdrag him hum hmov hmin
      hhead.1 hhead.2.1 hhead.2.2.1 hhead.2.2.2 (by simp at hidle; omega)
    have htail := still_run_counts_up cfg { st with idle_timer := st.idle_timer + 1 }
      rest hact hjba hdrag him hum hmov hmin
      (fun i hi => hin i (by simp [hi]))
      (by simp at hidle ⊢; omega)
    show (let r := main_loop cfg inp st
      let r2 := runMainLoop cfg r.1 rest
      (r2.1, r.2 ++ r2.2)) = _
    rw [htick]
    dsimp only
    rw [htail]
    obtain ⟨we, idle, sa, sc, sm⟩ := st
    simp
    omega

/-- A previously-still session state anchored at the origin, used as the
concrete instance for the C7 witness. -/
def stillBase : StateMainLoop :=
  { we_are_dragging_mouse := false
    idle_timer := 0
    st_active := { active := true, just_became_active := false }
    st_is_click_inhibited := { inhibit_mask := 0, uninhibit_mask := 0 }
    st_is_cursor_moving := { old_x := 0, old_y := 0, moving := false } }

/-- Witness for the amended C7: three still ticks at the anchor raise
`idle_timer` from 0 to 3. -/
theorem still_run_counts_up_witness :
    (runMainLoop CONFIG stillBase (List.replicate 3 stillInput)).1.idle_timer
      = 3 := by
  have h := still_run_counts_up CONFIG stillBase (List.replicate 3 stillInput)
    rfl rfl rfl rfl rfl rfl (by norm_num [CONFIG]) (by decide) (by decide)
  rw [h]
  rfl

end RtMouse

namespace RtMouse

/-! ## C8: the deadline-advance loop -/

lemma advanceLoop_gt : ∀ (fuel next_tick now : Nat),
    now + 1 ≤ next_tick + TIMER_INTERVAL_MS * fuel →
    now < advanceLoop fuel next_tick now
  | 0, next_tick, now, h => by
    simp [advanceLoop]
    omega
  | fuel + 1, next_tick, now, h => by
    unfold advanceLoop
    split
    · exact advanceLoop_gt fuel (next_tick + TIMER_INTERVAL_MS) now
        (by simp [TIMER_INTERVAL_MS] at h ⊢; omega)
    · omega

lemma advanceLoop_le : ∀ (fuel next_tick now : Nat),
    next_tick ≤ now + TIMER_INTERVAL_MS →
    advanceLoop fuel next_tick now ≤ now + TIMER_INTERVAL_MS
  | 0, _, _, h => h
  | fuel + 1, next_tick, now, h => by
    unfold advanceLoop
    split
    · exact advanceLoop_le fuel (next_tick + TIMER_INTERVAL_MS) now
        (by simp [TIMER_INTERVAL_MS] at *; omega)
    · exact h

lemma advanceLoop_mod : ∀ (fuel next_tick now : Nat),
    advanceLoop fuel next_tick now % TIMER_INTERVAL_MS
      = next_tick % TIMER_INTERVAL_MS
  | 0, _, _ => rfl
  | fuel + 1, next_tick, now => by
    unfold advanceLoop
    split
    · rw [advanceLoop_mod fuel (next_tick + TIMER_INTERVAL_MS) now]
      exact Nat.add_mod_right _ _
    · rfl

/-- C8: the deadline-advance loop
(`while next_tick <= now { next_tick += tick_duration }`) moves the deadline
forward by whole tick intervals until it is strictly after `now`, landing
within one interval of `now` (missed intervals are skipped, never replayed),
and any wakeup at or after the new deadline falls in a strictly later
100 ms grid interval than `now` — so at most one evaluation is issued per
elapsed tick interval. -/
theorem scheduler_skips_never_bursts (next_tick now w : Nat)
    (hle : next_tick ≤ now) (hgrid : next_tick % TIMER_INTERVAL_MS = 0)
    (hw : advanceDeadline next_tick now ≤ w) :
    now < advanceDeadline next_tick now ∧
    advanceDeadline next_tick now ≤ now + TIMER_INTERVAL_MS ∧
    advanceDeadline next_tick now % TIMER_INTERVAL_MS = 0 ∧
    now / TIMER_INTERVAL_MS < w / TIMER_INTERVAL_MS := by
  have hgt : now < advanceDeadline next_tick now := by
    apply advanceLoop_gt
    simp [TIMER_INTERVAL_MS]
    omega
  have hlee : advanceDeadline next_tick now ≤ now + TIMER_INTERVAL_MS := by
    apply advanceLoop_le
    simp [TIMER_INTERVAL_MS]
    omega
  have hmod : advanceDeadline next_tick now % TIMER_INTERVAL_MS = 0 := by
    unfold advanceDeadline
    rw [advanceLoop_mod]
    exact hgrid
  refine ⟨hgt, hlee, hmod, ?_⟩
  have h100 : (0 : Nat) < TIMER_INTERVAL_MS := by norm_num [TIMER_INTERVAL_MS]
  set a := advanceDeadline next_tick now with ha
  have hk : a = TIMER_INTERVAL_MS * (a / TIMER_INTERVAL_MS) :=
    (Nat.mul_div_cancel' (Nat.dvd_of_mod_eq_zero hmod)).symm
  have h1 : now / TIMER_INTERVAL_MS < a / TIMER_INTERVAL_MS := by
    rw [Nat.div_lt_iff_lt_mul h100]
    calc now < a := hgt
      _ = TIMER_INTERVAL_MS * (a / TIMER_INTERVAL_MS) := hk
      _ = a / TIMER_INTERVAL_MS * TIMER_INTERVAL_MS := Nat.mul_comm _ _
  have h2 : a / TIMER_INTERVAL_MS ≤ w / TIMER_INTERVAL_MS :=
    Nat.div_le_div_right hw
  omega

/-- Witness for C8: deadline 0, loop body finished at time 5, wakeup at the
new deadline 100. -/
theorem scheduler_skips_never_bursts_witness :
    5 < advanceDeadline 0 5 ∧
    advanceDeadline 0 5 ≤ 5 + TIMER_INTERVAL_MS ∧
    advanceDeadline 0 5 % TIMER_INTERVAL_MS = 0 ∧
    5 / TIMER_INTERVAL_MS < 100 / TIMER_INTERVAL_MS :=
  scheduler_skips_never_bursts 0 5 100 (by decide) (by decide) (by decide)

end RtMouse
